import Mathlib

/-!
Shallow embedding of the recipe-tools module (recipe retrieval core):
ingredient tokenization, pantry match scoring, candidate ranking and the
keyword-based similarity query, together with theorems settling the
specification claims about them.

Text is modelled as lists of characters; the persistent Store is modelled
as a list of recipe rows; the Prisma query combinators (where, orderBy,
take) are modelled as filter, stable descending sort and take.
-/

/-- Character strings, modelled as lists of characters so that all text
operations are structurally recursive and kernel-computable. -/
abbrev Str : Type := List Char

/-- Character-wise lower-casing; models toLowerCase as applied to the
ingredient text and pantry entries. -/
def lowerStr (s : Str) : Str := s.map Char.toLower

/-- Helper for substring containment: needle matches at the head of hay. -/
def leadsWith : Str → Str → Bool
  | [], _ => true
  | _ :: _, [] => false
  | n :: ns, h :: hs => n == h && leadsWith ns hs

/-- Substring containment, strContains hay needle; models the
includes check of the source (an empty needle is contained in every
string, as in JavaScript). -/
def strContains : Str → Str → Bool
  | [], needle => needle.isEmpty
  | c :: rest, needle => leadsWith needle (c :: rest) || strContains rest needle

/-- Split at every character satisfying p; models a split on a
single-character-class regular expression: n delimiter occurrences yield
n + 1 pieces, and the empty input yields one empty piece. -/
def splitDelim (p : Char → Bool) : Str → List Str
  | [] => [[]]
  | c :: rest =>
    if p c then [] :: splitDelim p rest
    else
      match splitDelim p rest with
      | [] => [[c]]
      | t :: ts => (c :: t) :: ts

/-- The raw ingredient tokenization of the source: split the ingredient
text on comma or semicolon, with no trimming and no filtering; its length
is the totalIngredients denominator of the scorer. -/
def splitCS (s : Str) : List Str :=
  splitDelim (fun c => c == ',' || c == ';') s

/-- Replace every maximal whitespace run by a single space character;
auxiliary step for the whitespace-run split below. -/
def compressWs : Str → Str
  | [] => []
  | [c] => if c.isWhitespace then [' '] else [c]
  | c :: d :: rest =>
    if c.isWhitespace && d.isWhitespace then compressWs (d :: rest)
    else (if c.isWhitespace then ' ' else c) :: compressWs (d :: rest)

/-- Split on whitespace runs; models the title split used when the
similarity keyword set is built. -/
def splitWs (s : Str) : List Str :=
  splitDelim (fun c => c == ' ') (compressWs s)

/-- Remove leading and trailing whitespace; models trim. -/
def trimStr (s : Str) : Str :=
  ((s.dropWhile Char.isWhitespace).reverse.dropWhile Char.isWhitespace).reverse

/-- A stored recipe row, restricted to the fields the core reads. The
remaining descriptive columns are opaque to the core and are omitted.
The source reads the title and category fields of the similarity query
under their pre-migration column names, name and cuisine; the current
schema and the specification call them title and category. -/
structure Recipe where
  id : Nat
  title : Str
  category : Option Str
  ingredients : Str
deriving DecidableEq

/-- A recipe together with the two derived score fields produced by the
availability scorer (the source spreads the recipe row and adds the two
fields; here the row is kept as one component). -/
structure ScoredRecipe where
  recipe : Recipe
  matchPercentage : ℚ
  missingIngredientsCount : ℤ
deriving DecidableEq

/-- Key-ingredient extraction of the source: split on comma or semicolon,
trim each piece, keep pieces longer than 3 characters, take the first 5. -/
def extractKeyIngredients (ingredients : Str) : List Str :=
  (((splitCS ingredients).map trimStr).filter (fun item => 3 < item.length)).take 5

/-- The similarity keyword set built from the reference recipe:
whitespace-split title tokens, the category if present, and the key
ingredients. Each part is guarded by JavaScript truthiness, so an empty
string contributes nothing. -/
def similarityKeywords (recipe : Recipe) : List Str :=
  (if recipe.title.isEmpty then [] else splitWs recipe.title) ++
  (match recipe.category with
    | some c => if c.isEmpty then [] else [c]
    | none => []) ++
  (if recipe.ingredients.isEmpty then [] else extractKeyIngredients recipe.ingredients)

/-- The inner disjunction of the similarity query: at least one of the
title, category and ingredients fields contains the keyword (a missing
category matches nothing). -/
def fieldContains (r : Recipe) (keyword : Str) : Bool :=
  strContains r.title keyword ||
  (match r.category with | some c => strContains c keyword | none => false) ||
  strContains r.ingredients keyword

/-- Stable descending sort by recipe identifier; models the orderBy id
desc clause of the Store queries. -/
def sortByIdDesc (l : List Recipe) : List Recipe :=
  l.insertionSort (fun a b => b.id ≤ a.id)

/-- A Store findMany call: where-filter, default descending-id order,
take a row count (modelled for the non-negative take values the source
passes). -/
def storeQuery (db : List Recipe) (pred : Recipe → Bool) (lim : Nat) : List Recipe :=
  (sortByIdDesc (db.filter pred)).take lim

/-- The typed failure of the similarity engine; the source throws an
Error whose message names the missing identifier. -/
inductive SimilarError where
  | notFound (id : Nat)
deriving DecidableEq

/-- The similarity engine: look up the reference recipe (failing with a
typed NotFound error when the identifier does not resolve), build the
keyword set, and query the Store for recipes with a different identifier
for which SOME keyword is contained in some field. The keyword clauses
are combined under a top-level OR, mirroring the nested OR blocks of the
source query. -/
def getSimilarRecipes (db : List Recipe) (recipeId : Nat) (lim : Nat := 5) :
    Except SimilarError (List Recipe) :=
  match db.find? (fun r => r.id == recipeId) with
  | none => Except.error (SimilarError.notFound recipeId)
  | some recipe =>
      Except.ok (storeQuery db
        (fun r => r.id != recipeId &&
          (similarityKeywords recipe).any (fun kw => fieldContains r kw)) lim)

/-- The matchingIngredients count of the scorer: the number of pantry
entries (duplicates counted separately) whose lower-cased form is a
substring of the lower-cased recipe ingredient text. -/
def matchingCount (availableIngredients : List Str) (recipe : Recipe) : Nat :=
  (availableIngredients.filter
    (fun ingredient => strContains (lowerStr recipe.ingredients) (lowerStr ingredient))).length

/-- The totalIngredients estimate of the scorer: the number of pieces of
the raw comma-or-semicolon split of the ingredient text. -/
def totalCount (recipe : Recipe) : Nat := (splitCS recipe.ingredients).length

/-- The match scorer: percentage of matching pantry entries over the
token count, and the missing-ingredient difference, computed exactly as
in the source (no clamping anywhere). -/
def scoreRecipe (availableIngredients : List Str) (recipe : Recipe) : ScoredRecipe :=
  { recipe := recipe
    matchPercentage :=
      (matchingCount availableIngredients recipe : ℚ) / (totalCount recipe : ℚ) * 100
    missingIngredientsCount :=
      (totalCount recipe : ℤ) - (matchingCount availableIngredients recipe : ℤ) }

/-- The candidate pool fetch: at most 1000 recipes, most recent (largest
identifier) first. -/
def fetchCandidatePool (db : List Recipe) : List Recipe :=
  (sortByIdDesc db).take 1000

/-- Every fetched candidate paired with its score, in fetch order; this
is the pre-sort candidate sequence the ranker consumes. -/
def scoredCandidates (db : List Recipe) (availableIngredients : List Str) :
    List ScoredRecipe :=
  (fetchCandidatePool db).map (scoreRecipe availableIngredients)

/-- JavaScript Array slice taken from index 0 up to end index e: a
negative e counts back from the end of the array. -/
def jsSlice {α : Type} (l : List α) (e : ℤ) : List α :=
  if e < 0 then l.take ((l.length + e).toNat) else l.take e.toNat

/-- Stable descending sort by match percentage; models the stable
comparator sort of the source ranker. -/
def sortByScoreDesc (l : List ScoredRecipe) : List ScoredRecipe :=
  l.insertionSort (fun a b => b.matchPercentage ≤ a.matchPercentage)

/-- The candidate ranker: keep scores strictly above 50, sort descending
by match percentage (stable), and truncate with slice(0, limit). -/
def rankCandidates (scored : List ScoredRecipe) (lim : ℤ) : List ScoredRecipe :=
  jsSlice (sortByScoreDesc
    (scored.filter (fun s => decide ((50 : ℚ) < s.matchPercentage)))) lim

/-- The pantry search: an empty pantry short-circuits to an empty result;
otherwise fetch the candidate pool, score every candidate and rank. -/
def findRecipesByAvailableIngredients (db : List Recipe)
    (availableIngredients : List Str) (lim : ℤ := 10) : List ScoredRecipe :=
  if availableIngredients.isEmpty then []
  else rankCandidates (scoredCandidates db availableIngredients) lim

/-! Concrete inputs used to evaluate the definitions on specific data.
Each block of inputs belongs to a single claim. -/

/-- Reference recipe of the similarity counterexample: two title tokens,
no category, empty ingredient text. -/
def simRef : Recipe := { id := 1, title := "aaaa bbbb".toList, category := none, ingredients := [] }

/-- Candidate recipe containing the first title token only. -/
def simCand : Recipe := { id := 2, title := "aaaa".toList, category := none, ingredients := [] }

/-- A two-recipe store for the similarity claim. -/
def simDb : List Recipe := [simRef, simCand]

/-- Recipe with a single ingredient token, for the percentage-bound
counterexample. -/
def c2Recipe : Recipe := { id := 1, title := [], category := none, ingredients := "chicken".toList }

/-- Pantry with two entries that are both substrings of the single
ingredient token. -/
def c2Avail : List Str := [ "c".toList, "h".toList ]

/-- Two fully matching scored entries, for the negative-limit
counterexample of the ranker. -/
def c3Scored : List ScoredRecipe :=
  [ { recipe := { id := 1, title := [], category := none, ingredients := [] },
      matchPercentage := 100, missingIngredientsCount := 0 },
    { recipe := { id := 2, title := [], category := none, ingredients := [] },
      matchPercentage := 100, missingIngredientsCount := 0 } ]

/-- Recipe with one ingredient token, for the duplicate-pantry
negative-missing-count evaluation. -/
def c5Recipe : Recipe := { id := 1, title := [], category := none, ingredients := "chicken".toList }

/-- Pantry repeating the same matching entry twice. -/
def c5Avail : List Str := [ "chicken".toList, "chicken".toList ]

/-- One-recipe store for the threshold witness. -/
def c6Recipe : Recipe := { id := 1, title := [], category := none, ingredients := "ab".toList }

/-- Its store. -/
def c6Db : List Recipe := [c6Recipe]

/-- A pantry fully covering the single ingredient token. -/
def c6Avail : List Str := [ "ab".toList ]

/-! Helper lemmas shared by the claim theorems. -/

/-- A single-character-class split always yields at least one piece. -/
theorem splitDelim_length_pos (p : Char → Bool) (s : Str) :
    0 < (splitDelim p s).length := by
  cases s with
  | nil => simp [splitDelim]
  | cons c rest =>
    simp only [splitDelim]
    split
    · simp
    · split <;> simp

/-- The totalIngredients denominator of the scorer is never zero. -/
theorem totalCount_pos (recipe : Recipe) : 0 < totalCount recipe :=
  splitDelim_length_pos _ _

/-- Membership in a Store query result implies membership in the store
and satisfaction of the where-predicate. -/
theorem of_mem_storeQuery {db : List Recipe} {pred : Recipe → Bool} {lim : Nat}
    {r : Recipe} (h : r ∈ storeQuery db pred lim) : r ∈ db ∧ pred r = true := by
  have h1 : r ∈ sortByIdDesc (db.filter pred) := List.mem_of_mem_take h
  rw [sortByIdDesc] at h1
  have h2 : r ∈ db.filter pred := (List.mem_insertionSort _).mp h1
  exact ⟨(List.mem_filter.mp h2).1, (List.mem_filter.mp h2).2⟩

/-- The slice of a list is one of its sublists. -/
theorem jsSlice_sublist {α : Type} (l : List α) (e : ℤ) : (jsSlice l e).Sublist l := by
  unfold jsSlice
  split <;> exact List.take_sublist _ _

/-! Claim theorems. -/

/-- C2 counterexample: with the one-token recipe c2Recipe and the
two-entry pantry c2Avail, both entries are substrings of the single
token, so the claimed upper bound of 100 fails (the value is 200). -/
theorem c2_counterexample :
    ¬ ((scoreRecipe c2Avail c2Recipe).matchPercentage ≤ 100) := by
  have hm : matchingCount c2Avail c2Recipe = 2 := by decide
  have ht : totalCount c2Recipe = 1 := by decide
  simp only [scoreRecipe, hm, ht]
  norm_num

/-- C2 amended: the match percentage is nonnegative and bounded by 100
times the pantry size; the bound 100 itself can be exceeded because the
matching count is bounded by the pantry size, not by the token count. -/
theorem c2_amended_percentage_bounds (recipe : Recipe) (avail : List Str) :
    0 ≤ (scoreRecipe avail recipe).matchPercentage ∧
    (scoreRecipe avail recipe).matchPercentage ≤ 100 * avail.length := by
  have ht : (1 : ℚ) ≤ (totalCount recipe : ℚ) := by
    exact_mod_cast totalCount_pos recipe
  constructor
  · simp only [scoreRecipe]
    positivity
  · simp only [scoreRecipe]
    have hm : (matchingCount avail recipe : ℚ) ≤ (avail.length : ℚ) := by
      exact_mod_cast List.length_filter_le _ _
    calc (matchingCount avail recipe : ℚ) / (totalCount recipe : ℚ) * 100
        ≤ (matchingCount avail recipe : ℚ) * 100 := by
          apply mul_le_mul_of_nonneg_right _ (by norm_num : (0:ℚ) ≤ 100)
          exact div_le_self (by positivity) ht
      _ ≤ (avail.length : ℚ) * 100 :=
          mul_le_mul_of_nonneg_right hm (by norm_num)
      _ = 100 * avail.length := by ring

/-- C3 counterexample: with two fully matching scored entries and limit
-1, the ranker returns a non-empty sequence (JavaScript slice keeps all
but the last entry), refuting the claim that every limit at most 0
yields an empty sequence. -/
theorem c3_counterexample : rankCandidates c3Scored (-1) ≠ [] := by decide

/-- C3 amended: a limit of exactly 0 makes the ranker return the empty
sequence without error; a negative limit instead drops that many entries
from the end of the kept sequence and so can return entries. -/
theorem c3_amended_zero_limit (scored : List ScoredRecipe) :
    rankCandidates scored 0 = [] := by
  simp [rankCandidates, jsSlice]

/-- C4 counterexample: the raw comma-or-semicolon tokenization of the
empty text and of a whitespace-only text is a one-piece sequence, not
the empty sequence the claim requires. -/
theorem c4_counterexample : splitCS ([] : Str) ≠ [] ∧ splitCS [' '] ≠ [] := by
  decide

/-- C4 amended: the tokenization used for the denominator never returns
an empty sequence — an empty text yields the single empty token — so the
scorer denominator is nonzero for every recipe even without an
empty-input guard. -/
theorem c4_amended_tokenizer_no_guard :
    splitCS ([] : Str) = [[]] ∧ (∀ s : Str, 0 < (splitCS s).length) ∧
    ∀ recipe : Recipe, (totalCount recipe : ℚ) ≠ 0 :=
  ⟨by decide, fun _ => splitDelim_length_pos _ _,
    fun r => by exact_mod_cast Nat.pos_iff_ne_zero.mp (totalCount_pos r)⟩

/-- C5: the scorer computes exactly the claimed arithmetic — matching
count as the number of pantry entries whose lower-cased form is a
substring of the lower-cased ingredient text, total count as the raw
split length, percentage as 100 times their ratio, missing count as the
unclamped difference — and the difference is negative on the duplicate
pantry c5Avail against the one-token recipe c5Recipe. -/
theorem c5_scorer_formulas (recipe : Recipe) (avail : List Str) :
    matchingCount avail recipe =
      avail.countP (fun i => strContains (lowerStr recipe.ingredients) (lowerStr i)) ∧
    totalCount recipe = (splitCS recipe.ingredients).length ∧
    (scoreRecipe avail recipe).matchPercentage =
      100 * (matchingCount avail recipe : ℚ) / (totalCount recipe : ℚ) ∧
    (scoreRecipe avail recipe).missingIngredientsCount =
      (totalCount recipe : ℤ) - (matchingCount avail recipe : ℤ) ∧
    (scoreRecipe c5Avail c5Recipe).missingIngredientsCount = -1 := by
  refine ⟨?_, rfl, ?_, rfl, by decide⟩
  · rw [matchingCount, List.countP_eq_length_filter]
  · simp only [scoreRecipe]
    ring

/-- C8: an empty pantry short-circuits the search to the empty result,
with no scoring and no error, for every store and limit. -/
theorem c8_empty_pantry (db : List Recipe) (lim : ℤ) :
    findRecipesByAvailableIngredients db [] lim = [] := rfl

/-- C10: appending one pantry entry never decreases the matching count
or the match percentage of a fixed recipe, and never increases its
missing-ingredient count. -/
theorem c10_pantry_monotone (recipe : Recipe) (avail : List Str) (x : Str) :
    matchingCount avail recipe ≤ matchingCount (avail ++ [x]) recipe ∧
    (scoreRecipe avail recipe).matchPercentage ≤
      (scoreRecipe (avail ++ [x]) recipe).matchPercentage ∧
    (scoreRecipe (avail ++ [x]) recipe).missingIngredientsCount ≤
      (scoreRecipe avail recipe).missingIngredientsCount := by
  have hm : matchingCount avail recipe ≤ matchingCount (avail ++ [x]) recipe := by
    rw [matchingCount, matchingCount, List.filter_append, List.length_append]
    exact Nat.le_add_right _ _
  refine ⟨hm, ?_, ?_⟩
  · simp only [scoreRecipe]
    have ht : (0 : ℚ) < (totalCount recipe : ℚ) := by exact_mod_cast totalCount_pos recipe
    have hc : (matchingCount avail recipe : ℚ) ≤
        (matchingCount (avail ++ [x]) recipe : ℚ) := by exact_mod_cast hm
    gcongr
  · simp only [scoreRecipe]
    have hc : (matchingCount avail recipe : ℤ) ≤
        (matchingCount (avail ++ [x]) recipe : ℤ) := by exact_mod_cast hm
    omega

/-- C6: every entry of the pantry-search result has a match percentage
strictly above 50, so entries scoring exactly 50 are excluded. -/
theorem c6_threshold_strict (db : List Recipe) (avail : List Str) (lim : ℤ)
    (e : ScoredRecipe) (h : e ∈ findRecipesByAvailableIngredients db avail lim) :
    50 < e.matchPercentage := by
  rw [findRecipesByAvailableIngredients] at h
  split at h
  · simp at h
  · rw [rankCandidates] at h
    have h1 := (jsSlice_sublist _ _).subset h
    rw [sortByScoreDesc] at h1
    have h2 := (List.mem_insertionSort _).mp h1
    have h3 := List.mem_filter.mp h2
    simpa using h3.2

/-- C6 witness: the fully covered one-token recipe is returned and its
percentage is indeed above the threshold. -/
theorem c6_witness : 50 < (scoreRecipe c6Avail c6Recipe).matchPercentage := by
  refine c6_threshold_strict c6Db c6Avail 10 _ ?_
  have hmp : (scoreRecipe c6Avail c6Recipe).matchPercentage = 100 := by
    have hm : matchingCount c6Avail c6Recipe = 1 := by decide
    have ht : totalCount c6Recipe = 1 := by decide
    simp [scoreRecipe, hm, ht]
  have hpool : scoredCandidates c6Db c6Avail = [scoreRecipe c6Avail c6Recipe] := rfl
  suffices hmem : scoreRecipe c6Avail c6Recipe ∈
      rankCandidates (scoredCandidates c6Db c6Avail) 10 from hmem
  rw [rankCandidates, hpool]
  have hkept : List.filter (fun s => decide ((50 : ℚ) < s.matchPercentage))
      [scoreRecipe c6Avail c6Recipe] = [scoreRecipe c6Avail c6Recipe] := by
    simp only [List.filter_cons, hmp, List.filter_nil]
    simp only [decide_eq_true_eq]
    rw [if_pos (by decide : (50 : ℚ) < 100)]
  rw [hkept]
  show scoreRecipe c6Avail c6Recipe ∈ [scoreRecipe c6Avail c6Recipe]
  simp

/-- C9: when no recipe in the store carries the reference identifier,
the similarity engine fails with the typed NotFound error. -/
theorem c9_not_found (db : List Recipe) (recipeId : Nat) (lim : Nat)
    (h : ∀ r ∈ db, r.id ≠ recipeId) :
    getSimilarRecipes db recipeId lim = Except.error (SimilarError.notFound recipeId) := by
  have hfind : db.find? (fun r => r.id == recipeId) = none :=
    List.find?_eq_none.mpr (fun x hx => by simpa using h x hx)
  simp only [getSimilarRecipes, hfind]

/-- C9 witness: the empty store resolves no identifier, so looking up
identifier 7 fails with NotFound 7. -/
theorem c9_witness : getSimilarRecipes [] 7 5 = Except.error (SimilarError.notFound 7) :=
  c9_not_found [] 7 5 (by simp)

/-- C1 counterexample: the reference recipe simRef has keywords aaaa and
bbbb; the returned candidate simCand contains aaaa but no field of it
contains bbbb, so candidates need not satisfy every keyword. -/
theorem c1_counterexample :
    getSimilarRecipes simDb 1 5 = Except.ok [simCand] ∧
    ( "bbbb".toList ) ∈ similarityKeywords simRef ∧
    fieldContains simCand ( "bbbb".toList ) = false :=
  ⟨rfl, by decide, by decide⟩

/-- C1 amended: every candidate returned by the similarity engine has an
identifier different from the reference and satisfies AT LEAST ONE
keyword of the similarity keyword set in at least one of the title,
category and ingredients fields — an OR over keywords, not an AND. -/
theorem c1_amended_keyword_or (db : List Recipe) (recipeId : Nat) (lim : Nat)
    (refRecipe : Recipe) (res : List Recipe)
    (hfind : db.find? (fun r => r.id == recipeId) = some refRecipe)
    (hok : getSimilarRecipes db recipeId lim = Except.ok res) :
    ∀ r ∈ res, r.id ≠ recipeId ∧
      ∃ kw ∈ similarityKeywords refRecipe, fieldContains r kw = true := by
  simp only [getSimilarRecipes, hfind] at hok
  have hres : res = storeQuery db
      (fun r => r.id != recipeId &&
        (similarityKeywords refRecipe).any (fun kw => fieldContains r kw)) lim := by
    injection hok with h
    exact h.symm
  intro r hr
  rw [hres] at hr
  obtain ⟨_, hpred⟩ := of_mem_storeQuery hr
  rw [Bool.and_eq_true] at hpred
  refine ⟨by simpa using hpred.1, ?_⟩
  simpa using List.any_eq_true.mp hpred.2

/-- C1 witness: on the two-recipe store the returned candidate differs
from the reference identifier and matches some keyword. -/
theorem c1_witness : simCand.id ≠ 1 ∧
    ∃ kw ∈ similarityKeywords simRef, fieldContains simCand kw = true :=
  c1_amended_keyword_or simDb 1 5 simRef [simCand] rfl rfl simCand (by simp)

/-- C7: the pantry-search result is sorted descending by match
percentage, and the entries of any fixed percentage appear as a sublist
(hence in the same relative order) of the pre-sort scored candidate
sequence — the stable-sort tie-break of the source. -/
theorem c7_sorted_stable (db : List Recipe) (avail : List Str) (lim : ℤ) (q : ℚ) :
    (findRecipesByAvailableIngredients db avail lim).Pairwise
      (fun a b => b.matchPercentage ≤ a.matchPercentage) ∧
    ((findRecipesByAvailableIngredients db avail lim).filter
        (fun e => decide (e.matchPercentage = q))).Sublist
      ((scoredCandidates db avail).filter (fun e => decide (e.matchPercentage = q))) := by
  haveI hTot : IsTotal ScoredRecipe (fun a b => b.matchPercentage ≤ a.matchPercentage) :=
    ⟨fun a b => le_total _ _⟩
  haveI hTrans : IsTrans ScoredRecipe (fun a b => b.matchPercentage ≤ a.matchPercentage) :=
    ⟨fun _ _ _ h1 h2 => le_trans h2 h1⟩
  rw [findRecipesByAvailableIngredients]
  split
  · exact ⟨List.Pairwise.nil, List.nil_sublist _⟩
  · rw [rankCandidates]
    constructor
    · refine List.Pairwise.sublist (jsSlice_sublist _ _) ?_
      rw [sortByScoreDesc]
      exact List.sorted_insertionSort _ _
    · have hpw : (((scoredCandidates db avail).filter
            (fun s => decide ((50 : ℚ) < s.matchPercentage))).filter
            (fun e => decide (e.matchPercentage = q))).Pairwise
          (fun a b => b.matchPercentage ≤ a.matchPercentage) := by
        apply List.pairwise_of_forall_mem_list
        intro a ha b hb
        have ha2 := (List.mem_filter.mp ha).2
        have hb2 := (List.mem_filter.mp hb).2
        simp only [decide_eq_true_eq] at ha2 hb2
        rw [ha2, hb2]
      have hsubc : (((scoredCandidates db avail).filter
            (fun s => decide ((50 : ℚ) < s.matchPercentage))).filter
            (fun e => decide (e.matchPercentage = q))).Sublist
          (sortByScoreDesc ((scoredCandidates db avail).filter
            (fun s => decide ((50 : ℚ) < s.matchPercentage)))) := by
        rw [sortByScoreDesc]
        exact List.sublist_insertionSort hpw (List.filter_sublist _)
      have hsubc2 := List.Sublist.filter (fun e => decide (e.matchPercentage = q)) hsubc
      rw [List.filter_eq_self.mpr
        (fun a ha => (List.mem_filter.mp ha).2)] at hsubc2
      have hlen : ((sortByScoreDesc ((scoredCandidates db avail).filter
            (fun s => decide ((50 : ℚ) < s.matchPercentage)))).filter
            (fun e => decide (e.matchPercentage = q))).length =
          (((scoredCandidates db avail).filter
            (fun s => decide ((50 : ℚ) < s.matchPercentage))).filter
            (fun e => decide (e.matchPercentage = q))).length := by
        have hp : (sortByScoreDesc ((scoredCandidates db avail).filter
            (fun s => decide ((50 : ℚ) < s.matchPercentage)))).Perm
            ((scoredCandidates db avail).filter
            (fun s => decide ((50 : ℚ) < s.matchPercentage))) := by
          rw [sortByScoreDesc]
          exact List.perm_insertionSort _ _
        exact (hp.filter _).length_eq
      have heq := (List.Sublist.eq_of_length hsubc2 hlen.symm).symm
      have hsub1 : ((jsSlice (sortByScoreDesc ((scoredCandidates db avail).filter
            (fun s => decide ((50 : ℚ) < s.matchPercentage)))) lim).filter
            (fun e => decide (e.matchPercentage = q))).Sublist
          ((sortByScoreDesc ((scoredCandidates db avail).filter
            (fun s => decide ((50 : ℚ) < s.matchPercentage)))).filter
            (fun e => decide (e.matchPercentage = q))) :=
        List.Sublist.filter _ (jsSlice_sublist _ _)
      rw [heq] at hsub1
      exact hsub1.trans (List.Sublist.filter _ (List.filter_sublist _))
